import Mathlib

/-!
# Verification of the extension-tree resolution and hydration-control engine

Shallow embedding of the core of `render-runtime`:

* `src/react/components/ExtensionPoint/index.tsx` — path algebra
  (`mountTreePath`), child resolution (`getChildExtensions`) and the
  six-layer prop merge (`mergedProps` built with Ramda's `mergeDeepRight`);
* `src/react/utils/slots.tsx` — slot path computation (`generateSlot`) and
  dynamic-slot content resolution/materialization (`DynamicSlot`);
* `src/react/components/Hydration/PreventHydration.tsx` — the hydration
  gate's render branches and the bounded-retry implementation-readiness
  verification (`verifyComponentImplementation`);
* `src/react/utils/uncritical.ts` — the critical-style activation state
  machine (`registerLoadedStyle`, `createUncriticalLink`).

JavaScript data is modelled by the `PropVal` type (JSON values plus
`undefined`), with JS truthiness and the `&&` / `||` / `??` operators made
explicit, so that the embedding can mirror the source's use of
short-circuiting and nullish coalescing faithfully.
-/

/-- JavaScript values as they flow through the prop merge: JSON values plus
`undefined`. Objects are insertion-ordered association lists, as in JS. -/
inductive PropVal where
  | undef
  | null
  | bool (b : Bool)
  | num (n : Int)
  | str (s : String)
  | arr (elems : List PropVal)
  | obj (fields : List (String × PropVal))

/-- JS truthiness: `undefined`, `null`, `false`, `0` and `""` are falsy;
every object and array (including empty ones) is truthy. -/
def jsTruthy : PropVal → Bool
  | .undef => false
  | .null => false
  | .bool b => b
  | .num n => n != 0
  | .str s => s != ""
  | .arr _ => true
  | .obj _ => true

/-- JS nullish test: `undefined` or `null`. -/
def jsNullish : PropVal → Bool
  | .undef => true
  | .null => true
  | _ => false

/-- JS `a && b`: returns `a` when `a` is falsy, else `b`. -/
def jsAnd (a b : PropVal) : PropVal := if jsTruthy a then b else a

/-- JS `a || b`: returns `a` when `a` is truthy, else `b`. -/
def jsOr (a b : PropVal) : PropVal := if jsTruthy a then a else b

/-- JS `a ?? b`: returns `b` only when `a` is nullish. -/
def jsCoalesce (a b : PropVal) : PropVal := if jsNullish a then b else a

/-- First binding of a key in a JS object's field list (JS property lookup;
duplicate keys cannot arise in real JS objects, first occurrence wins). -/
def lookupAssoc {α : Type} : List (String × α) → String → Option α
  | [], _ => none
  | (k', v) :: rest, k => if k' = k then some v else lookupAssoc rest k

/-- Whether a `PropVal` is a plain object. Ramda's `mergeDeepRight` merges
recursively only when both sides are plain objects; arrays and scalars are
replaced wholesale. -/
def PropVal.isObj : PropVal → Bool
  | .obj _ => true
  | _ => false

mutual
/-- Ramda `mergeDeepRight l r`: when both sides are plain objects the fields
are merged recursively (keys of `l` first, keeping their order, followed by
the keys of `r` that are absent from `l`); in every other case `r` replaces
`l` wholesale (this covers arrays and scalars). -/
def mergeDeepRight : PropVal → PropVal → PropVal
  | .obj lf, .obj rf =>
    .obj (mergeFields lf rf ++ rf.filter (fun kv => (lookupAssoc lf kv.1).isNone))
  | _, r => r

/-- Merge every field of the left object with the matching field of the right
object (when present), keeping the left object's key order. -/
def mergeFields : List (String × PropVal) → List (String × PropVal) →
    List (String × PropVal)
  | [], _ => []
  | (k, v) :: rest, rf =>
    (k, match lookupAssoc rf k with
        | some rv => mergeDeepRight v rv
        | none => v) :: mergeFields rest rf
end

/-- Property lookup on a `PropVal`: only objects have properties. -/
def lookupProp : PropVal → String → Option PropVal
  | .obj f, k => lookupAssoc f k
  | _, _ => none

/-! ## Path algebra (`src/react/components/ExtensionPoint/index.tsx`, lines 35–43) -/

/-- `mountTreePath(currentId, parentTreePath)` from the source: the
self-reference guard returns `parentTreePath` when it equals `currentId`;
otherwise both non-empty joins with `/`; otherwise whichever is non-empty
(JS string truthiness is non-emptiness). -/
def mountTreePath (currentId parentTreePath : String) : String :=
  if parentTreePath = currentId then parentTreePath
  else if parentTreePath ≠ "" ∧ currentId ≠ "" then
    parentTreePath ++ "/" ++ currentId
  else if parentTreePath ≠ "" then parentTreePath else currentId

/-! ## Block model and child resolution (lines 45–84) -/

/-- `blockRole` enumeration from the block descriptor type. -/
inductive BlockRole where
  | children | around | before | after | slot
  deriving Repr, DecidableEq

/-- A block descriptor: `children` and `blockRole` are optional
(`none` models the JS `undefined` of legacy blocks). -/
structure BlockDescriptor where
  extensionPointId : String
  blockRole : Option BlockRole := none
  children : Option Bool := none
  deriving Repr, DecidableEq

/-- The slice of an `Extension` registry value that the verified code
reads. `blocks = none` models an absent `blocks` field (note that an empty
array is truthy in JS, so `blocks = some []` is *not* skipped). -/
structure Extension where
  component : Option String := none
  props : PropVal := .obj []
  content : PropVal := .obj []
  blocks : Option (List BlockDescriptor) := none
  blockId : Option String := none

/-- The extension registry, keyed by tree path. A key that is absent means
"do not render". -/
def Registry := List (String × Extension)

/-- The child filter from `getChildExtensions`: a block is a child iff
(`children` is `undefined` or `true`, or `blockRole === 'children'`) and
`blockRole !== 'slot'`. -/
def isChildBlock (block : BlockDescriptor) : Bool :=
  let isChild := block.children = none ∨ block.children = some true ∨
    block.blockRole = some .children
  let isNotSlot := block.blockRole ≠ some .slot
  isChild ∧ isNotSlot

/-- `getChildExtensions(runtime, treePath)`: `none` when the extension is
absent or has no `blocks` field; otherwise the filtered blocks mapped to
`(childTreePath, childProps)` where `childTreePath` is
`mountTreePath(child.extensionPointId, treePath)` and `childProps` the
child extension's declared props (defaulting to `{}`). -/
def getChildExtensions (extensions : Registry) (treePath : String) :
    Option (List (String × PropVal)) :=
  match lookupAssoc extensions treePath with
  | none => none
  | some ext =>
    match ext.blocks with
    | none => none
    | some blocks =>
      some ((blocks.filter isChildBlock).map (fun child =>
        let childTreePath := mountTreePath child.extensionPointId treePath
        let childProps :=
          match lookupAssoc extensions childTreePath with
          | some childExt => childExt.props
          | none => .obj []
        (childTreePath, childProps)))

/-! ## JS string primitives

`String.prototype.indexOf`, `substring` and `substr` are modelled over the
character list of the string (all strings involved are ASCII). -/

/-- Whether `pat` is a prefix of `s` (character lists). -/
def listPrefixEq : List Char → List Char → Bool
  | [], _ => true
  | _ :: _, [] => false
  | a :: as, b :: bs => a == b && listPrefixEq as bs

/-- Index of the first occurrence of `pat` in `s`, if any. -/
def subIdx (pat : List Char) : List Char → Option Nat
  | [] => if listPrefixEq pat [] then some 0 else none
  | c :: rest =>
    if listPrefixEq pat (c :: rest) then some 0
    else (subIdx pat rest).map (· + 1)

/-- JS `s.indexOf(pat)`: first occurrence index, or `-1`. -/
def strIndexOf (s pat : String) : Int :=
  match subIdx pat.data s.data with
  | some n => (n : Int)
  | none => -1

/-- JS `s.substring(start, finish)`: negative arguments clamp to `0`, values
above the length clamp to the length, and the two arguments are swapped when
`start > finish`. In particular `s.substring(0, -1) = ""`. -/
def jsSubstring (s : String) (start finish : Int) : String :=
  let n : Int := s.data.length
  let a := min (max start 0) n
  let b := min (max finish 0) n
  let lo := min a b
  let hi := max a b
  String.mk (((s.data).drop lo.toNat).take (hi - lo).toNat)

/-- JS `s.substr(start, length)`: a negative `start` counts from the end, a
non-positive `length` yields `""`. In particular `s.substr(0, -1) = ""`. -/
def jsSubstr (s : String) (start length : Int) : String :=
  let n : Int := s.data.length
  let st := if start < 0 then max (n + start) 0 else min start n
  if length ≤ 0 then ""
  else String.mk (((s.data).drop st.toNat).take (min length (n - st)).toNat)

/-! ## Slot paths (`src/react/utils/slots.tsx`, `generateSlot`, lines 36–53) -/

/-- The base-path rewrite in `generateSlot`: when `treePath` contains `slot`
anywhere, keep `treePath.substring(0, treePath.indexOf('-slot'))` (which is
`""` when `-slot` does not occur, since `substring(0, -1) = ""`); otherwise
keep `treePath` unchanged. -/
def treePathWithoutSlotMarker (treePath : String) : String :=
  if strIndexOf treePath "slot" > -1 then
    jsSubstring treePath 0 (strIndexOf treePath "-slot")
  else treePath

/-- `newTreePath` in `generateSlot`:
`` `${treePathWithoutSlotMarker}/${slotValue}` ``. -/
def slotNewTreePath (treePath slotValue : String) : String :=
  treePathWithoutSlotMarker treePath ++ ("/" ++ slotValue)

/-- `dynamicTreePath` in `SlotComponent` (lines 49–53): with
`hasLabel = slotValue.includes('#')`, the synthesized path is
`` `${newTreePath}${hasLabel ? '-' : '#'}slot${props.id}` ``. -/
def dynamicSlotTreePath (treePath slotValue id : String) : String :=
  let newTreePath := slotNewTreePath treePath slotValue
  let hasLabel := strIndexOf slotValue "#" > -1
  newTreePath ++ ((if hasLabel then "-" else "#") ++ ("slot" ++ id))

/-! ## Dynamic-slot content resolution (`src/react/utils/slots.tsx`,
`DynamicSlot`, lines 114–154)

`JSON.parse` is an external collaborator and is passed in as `parse`. -/

/-- One entry of the `listContent` query result. -/
structure ContentEntry where
  contentJSON : String

/-- `data?.listContent[i]?.contentJSON` as a JS value: `undefined` when the
entry is absent. -/
def entryContentJSON : Option ContentEntry → PropVal
  | none => .undef
  | some e => .str e.contentJSON

/-- `parse` applied to an entry's `contentJSON` (only reached by `&&` when
the string is non-empty). -/
def entryParsed (parse : String → PropVal) : Option ContentEntry → PropVal
  | none => .undef
  | some e => parse e.contentJSON

/-- The content expression of `DynamicSlot`:
`(listContent[1]?.contentJSON && JSON.parse(listContent[1]?.contentJSON)) ??
 (listContent[0]?.contentJSON && JSON.parse(listContent[0]?.contentJSON))`.
Note the entry at index `1` is consulted first, and that an empty
`contentJSON` at index `1` short-circuits `??` (the empty string is not
nullish), so index `0` is then never consulted. -/
def dynamicSlotContent (parse : String → PropVal) (entries : List ContentEntry) :
    PropVal :=
  jsCoalesce
    (jsAnd (entryContentJSON (entries.get? 1)) (entryParsed parse (entries.get? 1)))
    (jsAnd (entryContentJSON (entries.get? 0)) (entryParsed parse (entries.get? 0)))

/-- The registry write of `DynamicSlot` (lines 143–154) together with the
final `extensionContent` value: when the resolved content is falsy the base
entry is aliased unchanged (and the content re-read from it); otherwise a
content-augmented copy of the base entry is written (or JS `null`, modelled
as `none`, when the base entry is absent). -/
def dynamicSlotMaterialize (parse : String → PropVal) (entries : List ContentEntry)
    (base : Option Extension) : Option Extension × PropVal :=
  let c := dynamicSlotContent parse entries
  if jsTruthy c then
    (match base with
     | some b => some { b with content := c }
     | none => none, c)
  else
    (base, match base with
           | some b => b.content
           | none => .undef)

/-! ## Hydration gate (`src/react/components/Hydration/PreventHydration.tsx`,
lines 152–210) -/

/-- The per-render inputs of `PreventHydration`: the current `shouldHydrate`
prop, the `initialShouldHydrate` ref captured on first mount, the
`hasRenderedOnServer` flag of the subtree, and the `isLoaded` state (set to
`true` once asset loading finishes, never unset). -/
structure HydrationInput where
  shouldHydrate : Bool
  initialShouldHydrate : Bool
  hasRenderedOnServer : Bool
  isLoaded : Bool

/-- `shouldRenderImmediately` from the source:
`!hasRenderedOnServer || (shouldHydrate && shouldHydrate === initialShouldHydrate.current)`. -/
def shouldRenderImmediately (i : HydrationInput) : Bool :=
  !i.hasRenderedOnServer ||
    (i.shouldHydrate && i.shouldHydrate == i.initialShouldHydrate)

/-- The four return branches of `PreventHydration`, in source order. -/
inductive RenderBranch where
  /-- `!isLoaded && !hasRenderedOnServer`: an empty container div. -/
  | emptyContainer
  /-- `shouldRenderImmediately`: live children. -/
  | liveImmediate
  /-- `shouldHydrate && isLoaded`: live children after asset loading. -/
  | liveHydrated
  /-- the `dangerouslySetInnerHTML: ''` div that preserves server markup. -/
  | frozen
  deriving Repr, DecidableEq

/-- The branch selection of `PreventHydration`'s render body. -/
def renderBranch (i : HydrationInput) : RenderBranch :=
  if !i.isLoaded && !i.hasRenderedOnServer then .emptyContainer
  else if shouldRenderImmediately i then .liveImmediate
  else if i.shouldHydrate && i.isLoaded then .liveHydrated
  else .frozen

/-- Whether a branch renders the live children. -/
def isLiveBranch : RenderBranch → Bool
  | .liveImmediate => true
  | .liveHydrated => true
  | _ => false

/-! ## Implementation-readiness verification (`PreventHydration.tsx`,
`verifyComponentImplementation`, lines 26–51) -/

/-- Outcome of `verifyComponentImplementation`: whether it returned `true`
(`success`) or threw `Unable to fetch component` (`success = false`), and
the list of `setTimeout` waits performed, in order. -/
structure VerifyOutcome where
  success : Bool
  delays : List Nat
  deriving Repr, DecidableEq

/-- `verifyComponentImplementation(runtime, treePath, retries)`:
`implReady n` models `getImplementation(component)` being truthy at the
`n`-th check (`check` starts at `0`). On a failed check with retries left the
code waits `1100 - retries * 100` ms and recurses with `retries - 1`; with no
retries left it throws. The default call uses `retries = 10`. -/
def verifyComponentImplementation (implReady : Nat → Bool) (retries check : Nat) :
    VerifyOutcome :=
  if implReady check then ⟨true, []⟩
  else
    match retries with
    | 0 => ⟨false, []⟩
    | r + 1 =>
      let rest := verifyComponentImplementation implReady r (check + 1)
      ⟨rest.success, (1100 - (r + 1) * 100) :: rest.delays⟩

/-! ## Critical-style activation (`src/react/utils/uncritical.ts`) -/

/-- A style ref from `uncriticalStyleRefs`. -/
structure StyleRef where
  path : String
  media : Option String := none

/-- Load/error resolution of a style link. -/
inductive StyleStatus where
  | loaded
  | error
  deriving Repr, DecidableEq

/-- The module-level state of `uncritical.ts`: the `loadedStyles` Set (as an
insertion-ordered duplicate-free list), `totalStylesCount`, the
`stylesHydrated` flag, plus observables: how many times `applyUncritical`
ran (`activations`), which ids were promoted to `rel=stylesheet`
(`promoted`, in `hydrateStyle` call order — `null` ids are skipped), and
whether the `style#critical` block was removed (`criticalCleared`). -/
structure UncriticalState where
  loadedStyles : List (Option String)
  totalStylesCount : Nat
  stylesHydrated : Bool
  activations : Nat
  promoted : List String
  criticalCleared : Bool
  deriving Repr, DecidableEq

/-- The state before any load/error event, with `totalStylesCount = total`. -/
def initialUncriticalState (total : Nat) : UncriticalState :=
  ⟨[], total, false, 0, [], false⟩

/-- `registerLoadedStyle(styleId, status)()` : error resolutions record the
id `null`; an id already in the Set is ignored; after recording, a resolution
arriving once `stylesHydrated` is already set is promoted immediately (late
hydration); otherwise, when the Set size reaches `totalStylesCount` and the
debug mode is not `'manual'`, `applyUncritical()` runs: every recorded
non-null id is promoted in insertion order, the critical block is removed
and `stylesHydrated` is set. -/
def registerLoadedStyle (debugManual : Bool) (styleId : String)
    (status : StyleStatus) (s : UncriticalState) : UncriticalState :=
  let id : Option String := if status = .loaded then some styleId else none
  if s.loadedStyles.contains id then s
  else
    let ls := s.loadedStyles ++ [id]
    if s.stylesHydrated then
      { s with loadedStyles := ls, promoted := s.promoted ++ id.toList }
    else if ls.length = s.totalStylesCount ∧ ¬ debugManual then
      { s with loadedStyles := ls, stylesHydrated := true,
               activations := s.activations + 1,
               promoted := s.promoted ++ ls.filterMap (fun x => x),
               criticalCleared := true }
    else { s with loadedStyles := ls }

/-- `createUncriticalLink` over the whole ref list (`forEach`): falsy refs
are skipped; a link is appended (and `totalStylesCount` incremented) only
when it has no media query or its media query matches; the link id is
`uncritical_style_{index}` with the index taken over the full list. Returns
`totalStylesCount` and the ids of the appended links — only appended links
are in the document, so only they can ever fire `load`/`error`. -/
def createUncriticalLinks (mediaMatches : String → Bool)
    (refs : List (Option StyleRef)) : Nat × List String :=
  let appended := refs.enum.filterMap (fun p =>
    match p.2 with
    | none => none
    | some ref =>
      if (match ref.media with
          | none => true
          | some m => mediaMatches m) then
        some ("uncritical_style_" ++ toString p.1)
      else none)
  (appended.length, appended)

/-- A whole event history folded through `registerLoadedStyle`, starting
from the initial state. -/
def runStyleEvents (debugManual : Bool) (total : Nat)
    (events : List (String × StyleStatus)) : UncriticalState :=
  events.foldl (fun s e => registerLoadedStyle debugManual e.1 e.2 s)
    (initialUncriticalState total)

/-- The id an event resolves to: `null` for an error. -/
def resolvedId (e : String × StyleStatus) : Option String :=
  if e.2 = .loaded then some e.1 else none

/-- Append an element to a duplicate-free list unless already present
(the Set insertion discipline). -/
def insertNew (l : List (Option String)) (a : Option String) :
    List (Option String) :=
  if l.contains a then l else l ++ [a]

/-- The distinct resolved ids of an event history, in first-resolution
order. -/
def distinctResolved (events : List (String × StyleStatus)) :
    List (Option String) :=
  events.foldl (fun acc e => insertNew acc (resolvedId e)) []

/-! ## The six-layer prop merge (`ExtensionPoint/index.tsx`, lines 176–204) -/

/-- `component?.substr(0, component.indexOf('@'))`: `none` models the
optional chaining on a `null` component; when `@` does not occur,
`indexOf` is `-1` and `substr(0, -1)` is `""`. -/
def appName (component : Option String) : Option String :=
  component.map (fun c => jsSubstr c 0 (strIndexOf c "@"))

/-- `appName ? getSettings(appName) : {}` — the settings collaborator is
only consulted when a non-empty app name was parsed. -/
def appSettingsValue (getSettings : String → PropVal)
    (component : Option String) : PropVal :=
  match appName component with
  | some n => if n ≠ "" then getSettings n else .obj []
  | none => .obj []

/-- `appSettings ? { appSettings } : {}` — note that the empty object is
truthy in JS, so even `appSettings = {}` produces `{ appSettings: {} }`. -/
def appSettingsLayer (getSettings : String → PropVal)
    (component : Option String) : PropVal :=
  let appSettings := appSettingsValue getSettings component
  if jsTruthy appSettings then .obj [("appSettings", appSettings)]
  else .obj []

/-- The `{ params, query }` layer (both values may be `undefined`). -/
def paramsQueryLayer (params query : PropVal) : PropVal :=
  .obj [("params", params), ("query", query)]

/-- The six layers of the merge, in the order of the source's array literal:
`[appSettings ? {appSettings} : {}, parentProps, extensionProps,
blockProps || {}, content, { params, query }]`. -/
def mergeLayers (getSettings : String → PropVal) (component : Option String)
    (parentProps extensionProps blockProps content params query : PropVal) :
    List PropVal :=
  [appSettingsLayer getSettings component,
   parentProps,
   extensionProps,
   jsOr blockProps (.obj []),
   content,
   paramsQueryLayer params query]

/-- `mergedProps`: Ramda `reduce(mergeDeepRight, {}, layers)`, i.e. a left
fold of the deep merge over the six layers so that later layers override
earlier ones. -/
def mergedProps (getSettings : String → PropVal) (component : Option String)
    (parentProps extensionProps blockProps content params query : PropVal) :
    PropVal :=
  List.foldl mergeDeepRight (.obj [])
    (mergeLayers getSettings component parentProps extensionProps blockProps
      content params query)

/-- Modelled from the spec: the per-key precedence reading of the merge
order — a higher-precedence layer that binds a key wins, except that two
plain-object values for the same key are merged recursively; arrays and
scalars are replaced wholesale. `lo` is the accumulated lower-precedence
result, `hi` the next (higher-precedence) layer's binding. -/
def specLayerPrecedence (lo hi : Option PropVal) : Option PropVal :=
  match hi with
  | none => lo
  | some hv =>
    match lo, hv with
    | some (.obj lf), .obj hf => some (mergeDeepRight (.obj lf) (.obj hf))
    | _, _ => some hv

/-- Modelled from the spec: the value the spec's precedence rules assign to
key `k`, folding `specLayerPrecedence` through the layers from lowest to
highest precedence. -/
def specMergeLookup (layers : List PropVal) (k : String) : Option PropVal :=
  List.foldl specLayerPrecedence none (layers.map (fun l => lookupProp l k))

/-! # Helper lemmas -/

theorem strAppend_ne_empty (a b : String) (h : a ≠ "") : a ++ b ≠ "" := by
  intro hc
  apply h
  apply String.ext
  have h2 := congrArg String.data hc
  simp [String.data_append] at h2
  simp [h2.1]

theorem dashSlotAppend (s : String) : "-" ++ ("slot" ++ s) = "-slot" ++ s := by
  rw [← String.append_assoc]
  rfl

theorem hashSlotAppend (s : String) : "#" ++ ("slot" ++ s) = "#slot" ++ s := by
  rw [← String.append_assoc]
  rfl

theorem jsSubstring_zero_nonpos (s : String) (f : Int) (hf : f ≤ 0) :
    jsSubstring s 0 f = "" := by
  have hn : (0 : Int) ≤ (s.data.length : Int) := by exact_mod_cast Nat.zero_le _
  simp only [jsSubstring]
  have h1 : min (max (0 : Int) 0) (s.data.length : Int) = 0 := by omega
  have h2 : min (max f 0) (s.data.length : Int) = 0 := by omega
  rw [h1, h2]
  simp

/-! # Claim C8 — path algebra -/

/-- C8 counterexample: `mountPath` is not associative under repeated
application. With `a = "p"`, `b = "p"`, `c = "c"`, combining `b` under `a`
first triggers the self-reference guard and yields `"p"`, so the left
grouping gives `"p/c"`, while the right grouping gives `"p/p/c"`. -/
theorem C8_mount_path_counterexample :
    mountTreePath "c" (mountTreePath "p" "p") ≠
      mountTreePath (mountTreePath "c" "p") "p" := by decide

/-- C8 (amended): `mountTreePath` returns `parentPath` when
`parentPath = childId`, `` `${parentPath}/${childId}` `` when both are
non-empty, and the non-empty argument otherwise; repeated application is
associative provided the self-reference guard never fires in either
grouping (all three values non-empty, `a ≠ b`, `b ≠ c`, `a/b ≠ c` and
`a ≠ b/c`) — without those provisos associativity fails, as the
counterexample shows. -/
theorem C8_mount_path_amended :
    (∀ p c : String, p = c → mountTreePath c p = p) ∧
    (∀ p c : String, p ≠ c → p ≠ "" → c ≠ "" → mountTreePath c p = p ++ "/" ++ c) ∧
    (∀ p c : String, p ≠ c → c = "" → mountTreePath c p = p) ∧
    (∀ p c : String, p ≠ c → p = "" → mountTreePath c p = c) ∧
    (∀ a b c : String, a ≠ "" → b ≠ "" → c ≠ "" → a ≠ b → b ≠ c →
      a ++ "/" ++ b ≠ c → a ≠ b ++ "/" ++ c →
      mountTreePath c (mountTreePath b a) = mountTreePath (mountTreePath c b) a) := by
  refine ⟨?_, ?_, ?_, ?_, ?_⟩
  · intro p c h
    simp [mountTreePath, h]
  · intro p c h hp hc
    simp [mountTreePath, h, hp, hc]
  · intro p c h hc
    subst hc
    simp [mountTreePath, h]
  · intro p c h hp
    subst hp
    simp [mountTreePath, Ne.symm h]
  · intro a b c ha hb hc hab hbc habc habc'
    have h1 : mountTreePath b a = a ++ "/" ++ b := by
      simp [mountTreePath, hab, ha, hb]
    have h2 : mountTreePath c b = b ++ "/" ++ c := by
      simp [mountTreePath, hbc, hb, hc]
    have hne1 : a ++ "/" ++ b ≠ "" := strAppend_ne_empty _ _ (strAppend_ne_empty _ _ ha)
    have hne2 : b ++ "/" ++ c ≠ "" := strAppend_ne_empty _ _ (strAppend_ne_empty _ _ hb)
    rw [h1, h2]
    have h3 : mountTreePath c (a ++ "/" ++ b) = a ++ "/" ++ b ++ "/" ++ c := by
      simp [mountTreePath, habc, hne1, hc]
    have h4 : mountTreePath (b ++ "/" ++ c) a = a ++ "/" ++ (b ++ "/" ++ c) := by
      simp [mountTreePath, habc', ha, hne2]
    rw [h3, h4]
    simp [String.append_assoc]

/-- C8 witness: the amended clauses at concrete inputs — the self-reference
guard, the join of two non-empty segments, and a guard-free associative
triple. -/
theorem C8_mount_path_amended_witness :
    mountTreePath "p" "p" = "p" ∧
    mountTreePath "b" "a" = "a" ++ "/" ++ "b" ∧
    mountTreePath "z" (mountTreePath "y" "x") =
      mountTreePath (mountTreePath "z" "y") "x" :=
  ⟨C8_mount_path_amended.1 "p" "p" rfl,
   C8_mount_path_amended.2.1 "a" "b" (by decide) (by decide) (by decide),
   C8_mount_path_amended.2.2.2.2 "x" "y" "z" (by decide) (by decide) (by decide)
     (by decide) (by decide) (by decide) (by decide)⟩

/-! # Claim C7 — child resolution -/

/-- C7: a block appears in the filtered child list iff (`children` is unset,
or `children = true`, or `blockRole = 'children'`) and
`blockRole ≠ 'slot'`; and the two-entry registry scenario resolving `"a"`
yields exactly the child `"a/b"`. -/
theorem C7_child_resolution :
    (∀ (blocks : List BlockDescriptor) (b : BlockDescriptor),
      b ∈ blocks.filter isChildBlock ↔
        b ∈ blocks ∧
          ((b.children = none ∨ b.children = some true ∨
              b.blockRole = some .children) ∧ b.blockRole ≠ some .slot)) ∧
    getChildExtensions
        [("a", { component := some "X",
                 blocks := some [{ extensionPointId := "b" }] }),
         ("a/b", { component := some "Y" })] "a"
      = some [("a/b", .obj [])] := by
  constructor
  · intro blocks b
    rw [List.mem_filter]
    simp [isChildBlock]
  · rfl

/-! # Claim C2 — labeled dynamic slot separator -/

/-- C2 counterexample: with slot value `"banner#promo"` (which contains
`#`) and `id = "7"`, the synthesized dynamic tree path ends in `-slot7`,
not in `#slot7` as the claim states. -/
theorem C2_slot_separator_counterexample :
    dynamicSlotTreePath "store.home/flex" "banner#promo" "7"
        = "store.home/flex/banner#promo-slot7" ∧
    dynamicSlotTreePath "store.home/flex" "banner#promo" "7" ≠
      slotNewTreePath "store.home/flex" "banner#promo" ++ "#slot" ++ "7" := by
  constructor
  · rfl
  · decide

/-- C2 (amended): the separators are the other way around — the dynamic
tree path appends `-slot{id}` when `slotValue` already contains `#`, and
`#slot{id}` when it does not. -/
theorem C2_slot_separator_amended (treePath slotValue id : String) :
    (strIndexOf slotValue "#" > -1 →
      dynamicSlotTreePath treePath slotValue id
        = slotNewTreePath treePath slotValue ++ ("-slot" ++ id)) ∧
    (¬ strIndexOf slotValue "#" > -1 →
      dynamicSlotTreePath treePath slotValue id
        = slotNewTreePath treePath slotValue ++ ("#slot" ++ id)) := by
  constructor
  · intro h
    simp only [dynamicSlotTreePath, if_pos h]
    rw [dashSlotAppend]
  · intro h
    simp only [dynamicSlotTreePath, if_neg h]
    rw [hashSlotAppend]

/-- C2 witness: the amended separator rule at the two concrete slot values
of the spec's scenario. -/
theorem C2_slot_separator_amended_witness :
    dynamicSlotTreePath "store.home/flex" "banner#promo" "7"
      = slotNewTreePath "store.home/flex" "banner#promo" ++ ("-slot" ++ "7") ∧
    dynamicSlotTreePath "store.home/flex" "banner" "7"
      = slotNewTreePath "store.home/flex" "banner" ++ ("#slot" ++ "7") :=
  ⟨(C2_slot_separator_amended "store.home/flex" "banner#promo" "7").1 (by decide),
   (C2_slot_separator_amended "store.home/flex" "banner" "7").2 (by decide)⟩

/-! # Claim C9 — slot base-path rewriting -/

/-- C9 counterexample: the base path `"header#slot1"` has no trailing
`-slot…` suffix, yet it is not passed through unchanged: because it
contains `slot` but not `-slot`, `indexOf('-slot')` is `-1`,
`substring(0, -1)` is `""`, and the whole base path is dropped. -/
theorem C9_slot_path_counterexample :
    slotNewTreePath "header#slot1" "banner" = "/banner" ∧
    slotNewTreePath "header#slot1" "banner" ≠ "header#slot1" ++ ("/" ++ "banner") := by
  constructor
  · rfl
  · decide

/-- C9 (amended): the rewrite keys on the substring `slot` anywhere in the
base path, not on a trailing `-slot…` suffix: a base path without `slot`
passes through unchanged; a base path containing `slot` is truncated at the
*first* occurrence of `-slot` (everything from there on is dropped), and
collapses to the empty string when `-slot` does not occur at all; then
`/` + `slotValue` is appended. -/
theorem C9_slot_path_amended (treePath slotValue : String) :
    (strIndexOf treePath "slot" = -1 →
      slotNewTreePath treePath slotValue = treePath ++ ("/" ++ slotValue)) ∧
    (strIndexOf treePath "slot" > -1 → strIndexOf treePath "-slot" = -1 →
      slotNewTreePath treePath slotValue = "/" ++ slotValue) ∧
    (∀ k : Nat, strIndexOf treePath "slot" > -1 →
      strIndexOf treePath "-slot" = (k : Int) →
      slotNewTreePath treePath slotValue
        = jsSubstring treePath 0 k ++ ("/" ++ slotValue)) := by
  refine ⟨?_, ?_, ?_⟩
  · intro h
    simp only [slotNewTreePath, treePathWithoutSlotMarker, h]
    norm_num
  · intro h h2
    simp only [slotNewTreePath, treePathWithoutSlotMarker, if_pos h, h2]
    rw [jsSubstring_zero_nonpos _ _ (by norm_num)]
    exact String.empty_append _
  · intro k h h2
    simp only [slotNewTreePath, treePathWithoutSlotMarker, if_pos h, h2]

/-- C9 witness: the amended rewrite at three concrete base paths — no
`slot` at all, `slot` without `-slot`, and a `-slot` marker. -/
theorem C9_slot_path_amended_witness :
    slotNewTreePath "store.home" "banner" = "store.home" ++ ("/" ++ "banner") ∧
    slotNewTreePath "header#slot1" "x" = "/" ++ "x" ∧
    slotNewTreePath "store.home/flex-slot0" "banner"
      = jsSubstring "store.home/flex-slot0" 0 15 ++ ("/" ++ "banner") :=
  ⟨(C9_slot_path_amended "store.home" "banner").1 (by decide),
   (C9_slot_path_amended "header#slot1" "x").2.1 (by decide) (by decide),
   (C9_slot_path_amended "store.home/flex-slot0" "banner").2.2 15 (by decide) (by decide)⟩

/-! # Claim C3 — bounded-retry readiness verification -/

theorem verify_delays_spec (implReady : Nat → Bool) :
    ∀ retries check : Nat,
      (verifyComponentImplementation implReady retries check).delays
        = (List.range
            (verifyComponentImplementation implReady retries check).delays.length).map
            (fun k => 1100 - (retries - k) * 100) ∧
      (verifyComponentImplementation implReady retries check).delays.length ≤ retries := by
  intro retries
  induction retries with
  | zero =>
    intro check
    by_cases h : implReady check <;> simp [verifyComponentImplementation, h]
  | succ r ih =>
    intro check
    by_cases h : implReady check
    · simp [verifyComponentImplementation, h]
    · have hr := ih (check + 1)
      simp only [verifyComponentImplementation, h, if_false, Bool.false_eq_true,
        if_neg, not_false_iff]
      constructor
      · simp only [List.length_cons]
        rw [List.range_succ_eq_map, List.map_cons, List.map_map]
        have hhead : 1100 - (r + 1 - 0) * 100 = 1100 - (r + 1) * 100 := by omega
        rw [hhead]
        refine congrArg (List.cons _) ?_
        rw [hr.1]
        simp only [List.length_map, List.length_range]
        apply List.map_congr_left
        intro k _
        simp only [Function.comp]
        omega
      · simp only [List.length_cons]
        omega

theorem verify_failure_spec (implReady : Nat → Bool) :
    ∀ retries check : Nat,
      (∀ n, check ≤ n → n ≤ check + retries → implReady n = false) →
      (verifyComponentImplementation implReady retries check).success = false ∧
      (verifyComponentImplementation implReady retries check).delays.length = retries := by
  intro retries
  induction retries with
  | zero =>
    intro check h
    have h0 : implReady check = false := h check (le_refl _) (by omega)
    simp [verifyComponentImplementation, h0]
  | succ r ih =>
    intro check h
    have h0 : implReady check = false := h check (le_refl _) (by omega)
    have hr := ih (check + 1) (fun n h1 h2 => h n (by omega) (by omega))
    simp [verifyComponentImplementation, h0, hr.1, hr.2]

/-- C3 counterexample: with an implementation that is never ready, the
delay before the *first* retry is 100 ms, not ~1000 ms — the schedule
`1100 - retries*100` is driven by the *remaining*-retries counter, which
counts down from 10, so the waits grow rather than shrink. -/
theorem C3_retry_backoff_counterexample :
    (verifyComponentImplementation (fun _ => false) 10 0).delays
        = [100, 200, 300, 400, 500, 600, 700, 800, 900, 1000] ∧
    (verifyComponentImplementation (fun _ => false) 10 0).delays.head? ≠
      some 1000 := by
  constructor
  · rfl
  · decide

/-- C3 (amended): implementation-readiness verification makes at most 10
retry attempts; the delay before the `k`-th retry (1-based) is `100·k` ms,
i.e. `1100 - remaining·100` with `remaining` counting down from 10, so the
first retry waits ~100 ms and the waits grow toward ~1000 ms on the last
attempt; and exhausting all retries throws the fatal
`Unable to fetch component` error (`success = false`) rather than silently
falling back. -/
theorem C3_retry_schedule_amended (implReady : Nat → Bool) :
    (verifyComponentImplementation implReady 10 0).delays.length ≤ 10 ∧
    (verifyComponentImplementation implReady 10 0).delays
      = (List.range
          (verifyComponentImplementation implReady 10 0).delays.length).map
          (fun k => 100 * (k + 1)) ∧
    ((∀ n, n ≤ 10 → implReady n = false) →
      (verifyComponentImplementation implReady 10 0).success = false ∧
      (verifyComponentImplementation implReady 10 0).delays.length = 10) := by
  have hs := verify_delays_spec implReady 10 0
  refine ⟨hs.2, ?_, ?_⟩
  · rw [hs.1]
    simp only [List.length_map, List.length_range]
    apply List.map_congr_left
    intro k hk
    rw [List.mem_range] at hk
    have hk10 : k < 10 := lt_of_lt_of_le hk hs.2
    omega
  · intro h
    exact verify_failure_spec implReady 10 0 (fun n _ h2 => h n (by omega))

/-- C3 witness: the amended schedule with an implementation that is never
ready — retries exhaust and the call fails fatally after exactly 10 waits. -/
theorem C3_retry_schedule_amended_witness :
    (verifyComponentImplementation (fun _ => false) 10 0).success = false ∧
    (verifyComponentImplementation (fun _ => false) 10 0).delays.length = 10 :=
  (C3_retry_schedule_amended (fun _ => false)).2.2 (fun _ _ => rfl)

/-! # Claim C5 — the hydration gate never re-freezes (monotone inputs) -/

/-- C5 counterexample: for a server-rendered subtree whose
`shouldHydrate` prop starts `true` (captured as `initialShouldHydrate`) and
later flips to `false`, the first render takes the live
`shouldRenderImmediately` branch and the re-render takes the frozen
empty-`innerHTML` branch — a LIVE → FROZEN transition driven only by a
change of `shouldHydrate`. -/
theorem C5_hydration_gate_counterexample :
    isLiveBranch (renderBranch
      { shouldHydrate := true, initialShouldHydrate := true,
        hasRenderedOnServer := true, isLoaded := false }) = true ∧
    renderBranch
      { shouldHydrate := false, initialShouldHydrate := true,
        hasRenderedOnServer := true, isLoaded := false } = .frozen := by
  constructor
  · rfl
  · rfl

/-- C5 (amended): provided `shouldHydrate` is monotone over time (once
requested it is never withdrawn — the intended usage of the gate), the gate
never re-freezes: for two renders of the same subtree (same
`hasRenderedOnServer` and captured `initialShouldHydrate`) with
`shouldHydrate` and `isLoaded` only ever turning `true`, a live render is
never followed by the frozen branch. Without monotonicity of
`shouldHydrate` the property fails, as the counterexample shows. -/
theorem C5_hydration_gate_amended (hRS init shI ldI shJ ldJ : Bool)
    (hsh : shI = true → shJ = true) (hld : ldI = true → ldJ = true)
    (hlive : isLiveBranch (renderBranch
      { shouldHydrate := shI, initialShouldHydrate := init,
        hasRenderedOnServer := hRS, isLoaded := ldI }) = true) :
    renderBranch
      { shouldHydrate := shJ, initialShouldHydrate := init,
        hasRenderedOnServer := hRS, isLoaded := ldJ } ≠ .frozen := by
  revert hsh hld hlive
  revert hRS init shI ldI shJ ldJ
  decide

/-- C5 witness: a server-rendered subtree that rendered live with
`shouldHydrate = true` stays out of the frozen branch once assets load. -/
theorem C5_hydration_gate_amended_witness :
    renderBranch
      { shouldHydrate := true, initialShouldHydrate := true,
        hasRenderedOnServer := true, isLoaded := true } ≠ .frozen :=
  C5_hydration_gate_amended true true true false true true
    (fun _ => rfl) (fun _ => rfl) (by decide)

/-! # Claim C4 — critical-style activation -/

theorem registerLoadedStyle_step (e : String × StyleStatus) (s : UncriticalState)
    (hhyd : s.stylesHydrated = decide (s.totalStylesCount ≤ s.loadedStyles.length))
    (hact : s.activations
      = if s.totalStylesCount ≤ s.loadedStyles.length then 1 else 0) :
    (registerLoadedStyle false e.1 e.2 s).loadedStyles
        = insertNew s.loadedStyles (resolvedId e) ∧
    (registerLoadedStyle false e.1 e.2 s).totalStylesCount = s.totalStylesCount ∧
    (registerLoadedStyle false e.1 e.2 s).stylesHydrated
        = decide (s.totalStylesCount
            ≤ (insertNew s.loadedStyles (resolvedId e)).length) ∧
    (registerLoadedStyle false e.1 e.2 s).activations
        = (if s.totalStylesCount ≤ (insertNew s.loadedStyles (resolvedId e)).length
           then 1 else 0) := by
  by_cases hcont : s.loadedStyles.contains (resolvedId e) = true
  · have hcont' : s.loadedStyles.contains
        (if e.2 = StyleStatus.loaded then some e.1 else none) = true := hcont
    have hreg : registerLoadedStyle false e.1 e.2 s = s := by
      rw [registerLoadedStyle, if_pos hcont']
    have hins : insertNew s.loadedStyles (resolvedId e) = s.loadedStyles := by
      rw [insertNew, if_pos hcont]
    rw [hreg, hins]
    exact ⟨rfl, rfl, hhyd, hact⟩
  · have hcont' : ¬ s.loadedStyles.contains
        (if e.2 = StyleStatus.loaded then some e.1 else none) = true := hcont
    have hins : insertNew s.loadedStyles (resolvedId e)
        = s.loadedStyles ++ [resolvedId e] := by
      rw [insertNew, if_neg hcont]
    rw [hins]
    have hlen : (s.loadedStyles ++ [resolvedId e]).length
        = s.loadedStyles.length + 1 := by
      simp
    by_cases hge : s.totalStylesCount ≤ s.loadedStyles.length
    · have hhyd' : s.stylesHydrated = true := by
        rw [hhyd]
        simp [hge]
      have hreg : registerLoadedStyle false e.1 e.2 s
          = { s with loadedStyles := s.loadedStyles ++ [resolvedId e],
                     promoted := s.promoted ++ (resolvedId e).toList } := by
        rw [registerLoadedStyle, if_neg hcont', if_pos hhyd']
        rfl
      rw [hreg]
      refine ⟨rfl, rfl, ?_, ?_⟩
      · rw [hhyd', hlen]
        have h2 : s.totalStylesCount ≤ s.loadedStyles.length + 1 := by omega
        simp [h2]
      · rw [hact, hlen]
        have h2 : s.totalStylesCount ≤ s.loadedStyles.length + 1 := by omega
        simp [hge, h2]
    · have hhyd' : ¬ s.stylesHydrated = true := by
        rw [hhyd]
        simp [hge]
      by_cases heq : s.loadedStyles.length + 1 = s.totalStylesCount
      · have hfire : (s.loadedStyles
            ++ [if e.2 = StyleStatus.loaded then some e.1 else none]).length
              = s.totalStylesCount ∧ ¬ false = true := by
          constructor
          · simp only [List.length_append, List.length_cons, List.length_nil]
            omega
          · simp
        have hreg : registerLoadedStyle false e.1 e.2 s
            = { s with loadedStyles := s.loadedStyles ++ [resolvedId e],
                       stylesHydrated := true,
                       activations := s.activations + 1,
                       promoted := s.promoted
                         ++ (s.loadedStyles ++ [resolvedId e]).filterMap (fun x => x),
                       criticalCleared := true } := by
          rw [registerLoadedStyle, if_neg hcont', if_neg hhyd', if_pos hfire]
          rfl
        rw [hreg]
        refine ⟨rfl, rfl, ?_, ?_⟩
        · rw [hlen]
          have h2 : s.totalStylesCount ≤ s.loadedStyles.length + 1 := by omega
          simp [h2]
        · rw [hact, hlen]
          have h2 : s.totalStylesCount ≤ s.loadedStyles.length + 1 := by omega
          simp [hge, h2]
      · have hnofire : ¬ ((s.loadedStyles
            ++ [if e.2 = StyleStatus.loaded then some e.1 else none]).length
              = s.totalStylesCount ∧ ¬ false = true) := by
          intro hc
          apply heq
          have := hc.1
          simp only [List.length_append, List.length_cons, List.length_nil] at this
          omega
        have hreg : registerLoadedStyle false e.1 e.2 s
            = { s with loadedStyles := s.loadedStyles ++ [resolvedId e] } := by
          rw [registerLoadedStyle, if_neg hcont', if_neg hhyd', if_neg hnofire]
          rfl
        rw [hreg]
        refine ⟨rfl, rfl, ?_, ?_⟩
        · rw [hhyd, hlen]
          have h2 : ¬ s.totalStylesCount ≤ s.loadedStyles.length + 1 := by omega
          simp [hge, h2]
        · rw [hact, hlen]
          have h2 : ¬ s.totalStylesCount ≤ s.loadedStyles.length + 1 := by omega
          simp [hge, h2]

theorem runStyle_fold (total : Nat) :
    ∀ (events : List (String × StyleStatus)) (s : UncriticalState),
      s.totalStylesCount = total →
      s.stylesHydrated = decide (total ≤ s.loadedStyles.length) →
      s.activations = (if total ≤ s.loadedStyles.length then 1 else 0) →
      (events.foldl (fun s e => registerLoadedStyle false e.1 e.2 s) s).loadedStyles
          = events.foldl (fun acc e => insertNew acc (resolvedId e)) s.loadedStyles ∧
      (events.foldl (fun s e => registerLoadedStyle false e.1 e.2 s) s).totalStylesCount
          = total ∧
      (events.foldl (fun s e => registerLoadedStyle false e.1 e.2 s) s).stylesHydrated
          = decide (total ≤
              (events.foldl (fun s e =>
                registerLoadedStyle false e.1 e.2 s) s).loadedStyles.length) ∧
      (events.foldl (fun s e => registerLoadedStyle false e.1 e.2 s) s).activations
          = (if total ≤
              (events.foldl (fun s e =>
                registerLoadedStyle false e.1 e.2 s) s).loadedStyles.length
             then 1 else 0) := by
  intro events
  induction events with
  | nil =>
    intro s htot hhyd hact
    exact ⟨rfl, htot, hhyd, hact⟩
  | cons e rest ih =>
    intro s htot hhyd hact
    simp only [List.foldl_cons]
    have hstep := registerLoadedStyle_step e s (htot ▸ hhyd) (htot ▸ hact)
    have htot₁ : (registerLoadedStyle false e.1 e.2 s).totalStylesCount = total :=
      hstep.2.1.trans htot
    have hhyd₁ : (registerLoadedStyle false e.1 e.2 s).stylesHydrated
        = decide (total ≤ (registerLoadedStyle false e.1 e.2 s).loadedStyles.length) := by
      rw [hstep.2.2.1, hstep.1, htot]
    have hact₁ : (registerLoadedStyle false e.1 e.2 s).activations
        = (if total ≤ (registerLoadedStyle false e.1 e.2 s).loadedStyles.length
           then 1 else 0) := by
      rw [hstep.2.2.2, hstep.1, htot]
    have := ih (registerLoadedStyle false e.1 e.2 s) htot₁ hhyd₁ hact₁
    refine ⟨?_, this.2.1, this.2.2.1, this.2.2.2⟩
    rw [this.1, hstep.1]

theorem registerLoadedStyle_total0 (e : String × StyleStatus) (s : UncriticalState)
    (h : s.totalStylesCount = 0) :
    (registerLoadedStyle false e.1 e.2 s).activations = s.activations ∧
    (registerLoadedStyle false e.1 e.2 s).totalStylesCount = 0 := by
  by_cases hcont : s.loadedStyles.contains (resolvedId e) = true
  · have hcont' : s.loadedStyles.contains
        (if e.2 = StyleStatus.loaded then some e.1 else none) = true := hcont
    rw [registerLoadedStyle, if_pos hcont']
    exact ⟨rfl, h⟩
  · have hcont' : ¬ s.loadedStyles.contains
        (if e.2 = StyleStatus.loaded then some e.1 else none) = true := hcont
    by_cases hhyd : s.stylesHydrated = true
    · rw [registerLoadedStyle, if_neg hcont', if_pos hhyd]
      exact ⟨rfl, h⟩
    · have hnofire : ¬ ((s.loadedStyles
          ++ [if e.2 = StyleStatus.loaded then some e.1 else none]).length
            = s.totalStylesCount ∧ ¬ false = true) := by
        intro hc
        have := hc.1
        simp only [List.length_append, List.length_cons, List.length_nil, h] at this
        omega
      rw [registerLoadedStyle, if_neg hcont', if_neg hhyd, if_neg hnofire]
      exact ⟨rfl, h⟩

theorem runStyle_fold_total0 :
    ∀ (events : List (String × StyleStatus)) (s : UncriticalState),
      s.totalStylesCount = 0 →
      (events.foldl (fun s e => registerLoadedStyle false e.1 e.2 s) s).activations
        = s.activations := by
  intro events
  induction events with
  | nil => intro s _; rfl
  | cons e rest ih =>
    intro s h
    simp only [List.foldl_cons]
    have hstep := registerLoadedStyle_total0 e s h
    rw [ih (registerLoadedStyle false e.1 e.2 s) hstep.2, hstep.1]

/-- C4 counterexample: with `N = 2` media-matching refs whose links both
resolve `error`, both resolutions record the id `null`; the second is
swallowed by the Set's dedup, `loadedStyles.size` never reaches
`totalStylesCount`, and activation never fires — the claim demanded that
it fire exactly once for *every* load/error sequence. -/
theorem C4_activation_counterexample :
    ¬ (runStyleEvents false 2 [("uncritical_style_0", .error),
        ("uncritical_style_1", .error)]).activations = 1 := by decide

/-- C4 (amended): automatic activation fires exactly once, at the moment
the `N`-th *distinct* resolved id is recorded — where all error
resolutions collapse to the single id `null`, so event sequences in which
fewer than `N` distinct ids resolve (e.g. two or more errors) never reach
activation; when `N = 0` activation never fires; and in the spec's
scenario (`total = 2`, first ref loads, second errors) activation still
fires exactly once, promoting only the loaded id and clearing the critical
block. -/
theorem C4_activation_amended (total : Nat)
    (events : List (String × StyleStatus)) :
    (1 ≤ total →
      (runStyleEvents false total events).activations
        = (if total ≤ (distinctResolved events).length then 1 else 0)) ∧
    (total = 0 → (runStyleEvents false total events).activations = 0) ∧
    createUncriticalLinks (fun _ => true)
        [some { path := "a.css" }, some { path := "b.css" }]
      = (2, ["uncritical_style_0", "uncritical_style_1"]) ∧
    runStyleEvents false 2
        [("uncritical_style_0", .loaded), ("uncritical_style_1", .error)]
      = { loadedStyles := [some "uncritical_style_0", none],
          totalStylesCount := 2, stylesHydrated := true, activations := 1,
          promoted := ["uncritical_style_0"], criticalCleared := true } := by
  refine ⟨?_, ?_, by decide, by decide⟩
  · intro h1
    have hhyd0 : (initialUncriticalState total).stylesHydrated
        = decide (total ≤ (initialUncriticalState total).loadedStyles.length) := by
      simp [initialUncriticalState]
      omega
    have hact0 : (initialUncriticalState total).activations
        = (if total ≤ (initialUncriticalState total).loadedStyles.length
           then 1 else 0) := by
      have hn : ¬ total ≤ (initialUncriticalState total).loadedStyles.length := by
        simp [initialUncriticalState]
        omega
      rw [if_neg hn]
      rfl
    have hfold := runStyle_fold total events (initialUncriticalState total)
      rfl hhyd0 hact0
    rw [show runStyleEvents false total events
        = events.foldl (fun s e => registerLoadedStyle false e.1 e.2 s)
            (initialUncriticalState total) from rfl]
    rw [hfold.2.2.2, hfold.1]
    rfl
  · intro h0
    exact runStyle_fold_total0 events (initialUncriticalState total) h0

/-- C4 witness: the amended activation law at `total = 2` with two distinct
loaded resolutions. -/
theorem C4_activation_amended_witness :
    (runStyleEvents false 2 [("uncritical_style_0", .loaded),
        ("uncritical_style_1", .loaded)]).activations
      = (if 2 ≤ (distinctResolved [("uncritical_style_0", .loaded),
          ("uncritical_style_1", .loaded)]).length then 1 else 0) :=
  (C4_activation_amended 2 [("uncritical_style_0", .loaded),
    ("uncritical_style_1", .loaded)]).1 (by decide)

/-! # Claim C6 — dynamic-slot content resolution -/

theorem jsTruthy_str_of_ne (s : String) (h : s ≠ "") :
    jsTruthy (.str s) = true := by
  simp [jsTruthy, h]

theorem jsNullish_eq_false_of_truthy (v : PropVal) (h : jsTruthy v = true) :
    jsNullish v = false := by
  cases v <;> simp_all [jsTruthy, jsNullish]

/-- C6 counterexample: with the fetch returning the two entries
`[override, default]` (index 0 the override, index 1 the default, both
non-empty), the resolved content is the parse of the *second* entry — the
default, not the override: the code consults `listContent[1]` first. -/
theorem C6_content_precedence_counterexample :
    dynamicSlotContent PropVal.str
        [{ contentJSON := "override-content" }, { contentJSON := "default-content" }]
      = .str "default-content" ∧
    dynamicSlotContent PropVal.str
        [{ contentJSON := "override-content" }, { contentJSON := "default-content" }]
      ≠ .str "override-content" := by
  constructor
  · rfl
  · intro h
    simp only [show dynamicSlotContent PropVal.str
        [{ contentJSON := "override-content" }, { contentJSON := "default-content" }]
      = .str "default-content" from rfl, PropVal.str.injEq] at h
    exact absurd h (by decide)

/-- C6 (amended): the entry at index 1 wins when present with a non-empty
`contentJSON`; index 0 is consulted only when index 1 is absent (an empty
`contentJSON` at index 1 short-circuits `??` and aliases the base entry
even when index 0 is non-empty); when the winning candidate's content is
empty or no entry qualifies, the resolved content is falsy and the base
entry is aliased unchanged. (`hparse` reflects `JSON.parse` of the
non-empty object payloads in play yielding truthy objects.) -/
theorem C6_content_precedence_amended (parse : String → PropVal)
    (entries : List ContentEntry) (base : Extension)
    (hparse : ∀ s, jsTruthy (parse s) = true) :
    (∀ e1, entries.get? 1 = some e1 → e1.contentJSON ≠ "" →
      dynamicSlotMaterialize parse entries (some base)
        = (some { base with content := parse e1.contentJSON },
           parse e1.contentJSON)) ∧
    (∀ e0, entries.get? 1 = none → entries.get? 0 = some e0 →
      e0.contentJSON ≠ "" →
      dynamicSlotMaterialize parse entries (some base)
        = (some { base with content := parse e0.contentJSON },
           parse e0.contentJSON)) ∧
    (∀ e1, entries.get? 1 = some e1 → e1.contentJSON = "" →
      dynamicSlotMaterialize parse entries (some base)
        = (some base, base.content)) ∧
    (∀ e0, entries.get? 1 = none → entries.get? 0 = some e0 →
      e0.contentJSON = "" →
      dynamicSlotMaterialize parse entries (some base)
        = (some base, base.content)) ∧
    (entries = [] →
      dynamicSlotMaterialize parse entries (some base)
        = (some base, base.content)) := by
  refine ⟨?_, ?_, ?_, ?_, ?_⟩
  · intro e1 h1 hne
    have hc : dynamicSlotContent parse entries = parse e1.contentJSON := by
      rw [dynamicSlotContent, h1]
      simp only [entryContentJSON, entryParsed]
      rw [jsAnd, if_pos (jsTruthy_str_of_ne _ hne), jsCoalesce,
        if_neg (by simp [jsNullish_eq_false_of_truthy _ (hparse e1.contentJSON)])]
    rw [dynamicSlotMaterialize, hc, if_pos (hparse e1.contentJSON)]
  · intro e0 h1 h0 hne
    have hc : dynamicSlotContent parse entries = parse e0.contentJSON := by
      rw [dynamicSlotContent, h1, h0]
      simp only [entryContentJSON, entryParsed]
      rw [jsAnd, if_neg (by simp [jsTruthy]), jsCoalesce, if_pos (by simp [jsNullish]),
        jsAnd, if_pos (jsTruthy_str_of_ne _ hne)]
    rw [dynamicSlotMaterialize, hc, if_pos (hparse e0.contentJSON)]
  · intro e1 h1 hemp
    have hc : dynamicSlotContent parse entries = .str "" := by
      rw [dynamicSlotContent, h1]
      simp only [entryContentJSON, entryParsed, hemp]
      rw [jsAnd, if_neg (by simp [jsTruthy]), jsCoalesce, if_neg (by simp [jsNullish])]
    rw [dynamicSlotMaterialize, hc, if_neg (by simp [jsTruthy])]
  · intro e0 h1 h0 hemp
    have hc : dynamicSlotContent parse entries = .str "" := by
      rw [dynamicSlotContent, h1, h0]
      simp only [entryContentJSON, entryParsed, hemp]
      rw [jsAnd, if_neg (by simp [jsTruthy]), jsCoalesce, if_pos (by simp [jsNullish]),
        jsAnd, if_neg (by simp [jsTruthy])]
    rw [dynamicSlotMaterialize, hc, if_neg (by simp [jsTruthy])]
  · intro hnil
    subst hnil
    have hc : dynamicSlotContent parse [] = .undef := by
      rw [dynamicSlotContent]
      simp only [List.get?, entryContentJSON, entryParsed]
      rw [jsAnd, if_neg (by simp [jsTruthy]), jsCoalesce, if_pos (by simp [jsNullish])]
    rw [dynamicSlotMaterialize, hc, if_neg (by simp [jsTruthy])]

/-- C6 witness: the amended precedence with a parse yielding truthy
objects — index 1 wins over a non-empty index 0, and an empty index 1
aliases the base entry untouched. -/
theorem C6_content_precedence_amended_witness :
    dynamicSlotMaterialize (fun s => PropVal.obj [("raw", .str s)])
        [{ contentJSON := "override-content" }, { contentJSON := "default-content" }]
        (some { component := some "X" })
      = (some { component := some "X",
                content := PropVal.obj [("raw", .str "default-content")] },
         PropVal.obj [("raw", .str "default-content")]) ∧
    dynamicSlotMaterialize (fun s => PropVal.obj [("raw", .str s)])
        [{ contentJSON := "override-content" }, { contentJSON := "" }]
        (some { component := some "X" })
      = (some { component := some "X" }, PropVal.obj []) :=
  ⟨(C6_content_precedence_amended (fun s => PropVal.obj [("raw", .str s)])
      [{ contentJSON := "override-content" }, { contentJSON := "default-content" }]
      { component := some "X" } (fun _ => rfl)).1
      { contentJSON := "default-content" } rfl (by decide),
   (C6_content_precedence_amended (fun s => PropVal.obj [("raw", .str s)])
      [{ contentJSON := "override-content" }, { contentJSON := "" }]
      { component := some "X" } (fun _ => rfl)).2.2.1
      { contentJSON := "" } rfl rfl⟩

/-! # Claim C10 — the appSettings layer -/

theorem jsSubstr_nonpos (s : String) (start length : Int) (h : length ≤ 0) :
    jsSubstr s start length = "" := by
  simp only [jsSubstr]
  rw [if_pos h]

/-- C10 counterexample: with component id `"foo"` (no `@`), all other prop
sources empty, the merged props still contain the key `appSettings`, bound
to the empty object: `appName` parses to `""`, the settings lookup is
skipped and `appSettings` defaults to `{}` — but `{}` is truthy in JS, so
the ternary `appSettings ? { appSettings } : {}` still contributes
`{ appSettings: {} }`. -/
theorem C10_app_settings_counterexample :
    lookupProp (mergedProps (fun _ => .obj [("s", .num 1)]) (some "foo")
        (.obj []) (.obj []) (.obj []) (.obj []) .undef .undef) "appSettings"
      = some (.obj []) ∧
    lookupProp (mergedProps (fun _ => .obj [("s", .num 1)]) (some "foo")
        (.obj []) (.obj []) (.obj []) (.obj []) .undef .undef) "appSettings"
      ≠ none := by
  refine ⟨rfl, fun h => ?_⟩
  rw [show lookupProp (mergedProps (fun _ => .obj [("s", .num 1)]) (some "foo")
      (.obj []) (.obj []) (.obj []) (.obj []) .undef .undef) "appSettings"
    = some (.obj []) from rfl] at h
  exact Option.noConfusion h

/-- C10 (amended): the settings *lookup* participates only when a
non-empty app name parses from the component id, but the `{ appSettings }`
layer itself is always present: when the component id has no `@` (or the
component is `null`), `appSettings` falls back to `{}`, which is truthy,
so the merged props still carry an `appSettings` key bound to the empty
object. -/
theorem C10_app_settings_amended (getSettings : String → PropVal) :
    (∀ c : String, strIndexOf c "@" = -1 →
      appName (some c) = some "" ∧
      appSettingsValue getSettings (some c) = .obj [] ∧
      appSettingsLayer getSettings (some c)
        = .obj [("appSettings", .obj [])]) ∧
    appSettingsLayer getSettings none = .obj [("appSettings", .obj [])] ∧
    (∀ c : String, jsSubstr c 0 (strIndexOf c "@") ≠ "" →
      appSettingsValue getSettings (some c)
        = getSettings (jsSubstr c 0 (strIndexOf c "@"))) := by
  refine ⟨?_, ?_, ?_⟩
  · intro c h
    have happ : appName (some c) = some "" := by
      simp only [appName, Option.map, h]
      rw [jsSubstr_nonpos c 0 (-1) (by norm_num)]
    refine ⟨happ, ?_, ?_⟩
    · simp [appSettingsValue, happ]
    · simp [appSettingsLayer, appSettingsValue, happ, jsTruthy]
  · simp [appSettingsLayer, appSettingsValue, appName, jsTruthy]
  · intro c h
    simp [appSettingsValue, appName, h]

/-- C10 witness: the amended statement at the component id `"foo"` (no
`@`) and at `"vtex.menu@2.x"` (app name `"vtex.menu"`). -/
theorem C10_app_settings_amended_witness :
    appSettingsLayer (fun n => .obj [("app", .str n)]) (some "foo")
      = .obj [("appSettings", .obj [])] ∧
    appSettingsValue (fun n => .obj [("app", .str n)]) (some "vtex.menu@2.x")
      = .obj [("app", .str "vtex.menu")] :=
  ⟨((C10_app_settings_amended (fun n => .obj [("app", .str n)])).1 "foo"
      (by decide)).2.2,
   by
    rw [(C10_app_settings_amended (fun n => .obj [("app", .str n)])).2.2
      "vtex.menu@2.x" (by decide)]
    rfl⟩

/-! # Claim C1 — six-layer prop-merge precedence -/

theorem lookupAssoc_append {α : Type} (a b : List (String × α)) (k : String) :
    lookupAssoc (a ++ b) k
      = (match lookupAssoc a k with
         | some v => some v
         | none => lookupAssoc b k) := by
  induction a with
  | nil => rfl
  | cons h t ih =>
    obtain ⟨k', v⟩ := h
    by_cases hk : k' = k
    · simp [lookupAssoc, hk]
    · simp [lookupAssoc, hk, ih]

theorem lookupAssoc_mergeFields (lf rf : List (String × PropVal)) (k : String) :
    lookupAssoc (mergeFields lf rf) k
      = (match lookupAssoc lf k with
         | some v =>
           some (match lookupAssoc rf k with
                 | some rv => mergeDeepRight v rv
                 | none => v)
         | none => none) := by
  induction lf with
  | nil => rfl
  | cons h t ih =>
    obtain ⟨k', v⟩ := h
    by_cases hk : k' = k
    · simp [mergeFields, lookupAssoc, hk]
    · simp [mergeFields, lookupAssoc, hk, ih]

theorem lookupAssoc_filter_isNone (lf rf : List (String × PropVal)) (k : String) :
    lookupAssoc (rf.filter (fun kv => (lookupAssoc lf kv.1).isNone)) k
      = if (lookupAssoc lf k).isNone then lookupAssoc rf k else none := by
  induction rf with
  | nil =>
    by_cases hn : (lookupAssoc lf k).isNone <;> simp [lookupAssoc, hn]
  | cons h t ih =>
    obtain ⟨k', v⟩ := h
    by_cases hk : k' = k
    · subst hk
      by_cases hn : (lookupAssoc lf k').isNone
      · simp [List.filter_cons, hn, lookupAssoc]
      · simp [List.filter_cons, hn, lookupAssoc, ih]
    · by_cases hp : (lookupAssoc lf k').isNone <;>
        simp [List.filter_cons, hp, lookupAssoc, hk, ih]

theorem specLayerPrecedence_some_some (v rv : PropVal) :
    specLayerPrecedence (some v) (some rv) = some (mergeDeepRight v rv) := by
  cases v <;> cases rv <;> rfl

theorem lookupProp_merge (lf rf : List (String × PropVal)) (k : String) :
    lookupProp (mergeDeepRight (.obj lf) (.obj rf)) k
      = specLayerPrecedence (lookupAssoc lf k) (lookupAssoc rf k) := by
  rw [show mergeDeepRight (.obj lf) (.obj rf)
      = .obj (mergeFields lf rf
          ++ rf.filter (fun kv => (lookupAssoc lf kv.1).isNone)) from rfl]
  show lookupAssoc (mergeFields lf rf
      ++ rf.filter (fun kv => (lookupAssoc lf kv.1).isNone)) k
    = specLayerPrecedence (lookupAssoc lf k) (lookupAssoc rf k)
  rw [lookupAssoc_append, lookupAssoc_mergeFields, lookupAssoc_filter_isNone]
  cases hlf : lookupAssoc lf k with
  | some v =>
    cases hrf : lookupAssoc rf k with
    | some rv => simp [specLayerPrecedence_some_some]
    | none => simp [specLayerPrecedence]
  | none =>
    cases hrf : lookupAssoc rf k with
    | some rv => simp [specLayerPrecedence]
    | none => simp [specLayerPrecedence]

theorem lookupProp_foldl_merge (k : String) :
    ∀ (layers : List PropVal) (af : List (String × PropVal)),
      (∀ l ∈ layers, l.isObj = true) →
      lookupProp (List.foldl mergeDeepRight (.obj af) layers) k
        = List.foldl specLayerPrecedence (lookupAssoc af k)
            (layers.map (fun l => lookupProp l k)) := by
  intro layers
  induction layers with
  | nil => intro af _; rfl
  | cons l rest ih =>
    intro af hobj
    have hl := hobj l (List.mem_cons_self _ _)
    obtain ⟨lf, rfl⟩ : ∃ lf, l = .obj lf := by
      cases l <;> simp [PropVal.isObj] at hl ⊢
    simp only [List.foldl_cons, List.map_cons]
    rw [show mergeDeepRight (.obj af) (.obj lf)
        = .obj (mergeFields af lf
            ++ lf.filter (fun kv => (lookupAssoc af kv.1).isNone)) from rfl]
    rw [ih _ (fun x hx => hobj x (List.mem_cons_of_mem _ hx))]
    congr 1
    exact lookupProp_merge af lf k

theorem appSettingsLayer_isObj (getSettings : String → PropVal)
    (component : Option String) :
    (appSettingsLayer getSettings component).isObj = true := by
  simp only [appSettingsLayer]
  split <;> rfl

/-- C1: the value the six-layer merge assigns to any key is exactly the
spec's precedence chain over the six sources — `{ params, query }` over
`content` over `blockProps` over the extension's declared props over the
parent-passed props over `{ appSettings }` — with plain-object values for
the same key merged recursively and all other values (arrays and scalars)
replaced wholesale by the higher-precedence layer. -/
theorem C1_prop_merge_precedence (getSettings : String → PropVal)
    (component : Option String)
    (parentProps extensionProps blockProps content params query : PropVal)
    (hparent : parentProps.isObj = true) (hext : extensionProps.isObj = true)
    (hblock : (jsOr blockProps (.obj [])).isObj = true)
    (hcontent : content.isObj = true) (k : String) :
    lookupProp (mergedProps getSettings component parentProps extensionProps
        blockProps content params query) k
      = specMergeLookup (mergeLayers getSettings component parentProps
          extensionProps blockProps content params query) k := by
  have hobj : ∀ l ∈ mergeLayers getSettings component parentProps extensionProps
      blockProps content params query, l.isObj = true := by
    intro l hl
    simp only [mergeLayers, List.mem_cons, List.not_mem_nil, or_false] at hl
    rcases hl with rfl | rfl | rfl | rfl | rfl | rfl
    · exact appSettingsLayer_isObj getSettings component
    · exact hparent
    · exact hext
    · exact hblock
    · exact hcontent
    · rfl
  rw [mergedProps, specMergeLookup]
  exact lookupProp_foldl_merge k _ [] hobj

/-- C1 witness: the precedence chain at a concrete key bound conflictingly
by all six sources. -/
theorem C1_prop_merge_precedence_witness :
    lookupProp (mergedProps (fun _ => .obj [("k", .num 1)]) (some "app@1.x")
        (.obj [("k", .num 2)]) (.obj [("k", .num 3)]) (.obj [("k", .num 4)])
        (.obj [("k", .num 5)]) (.num 6) .undef) "k"
      = specMergeLookup (mergeLayers (fun _ => .obj [("k", .num 1)])
          (some "app@1.x") (.obj [("k", .num 2)]) (.obj [("k", .num 3)])
          (.obj [("k", .num 4)]) (.obj [("k", .num 5)]) (.num 6) .undef) "k" :=
  C1_prop_merge_precedence (fun _ => .obj [("k", .num 1)]) (some "app@1.x")
    (.obj [("k", .num 2)]) (.obj [("k", .num 3)]) (.obj [("k", .num 4)])
    (.obj [("k", .num 5)]) (.num 6) .undef rfl rfl rfl rfl "k"
